import Mathlib

/-!
# Hnefatafl rules engine: a shallow embedding of `src/Sources/functions.cpp`

Every definition in the `Hnefatafl` namespace is translated from the C++
source of the repository (file `src/Sources/functions.cpp`, types from
`typeDef.h`), keeping the source's names and control flow.  The board is
modelled as a total function `Nat → Nat → Cell` together with its size;
raw 2D-array accesses of the C++ become `Option`-valued reads (`getCell`)
that return `none` exactly when the C++ access would be out of the
allocated `SIZE × SIZE` grid (undefined behaviour in C++), and writes
become guarded functional updates.  Console output of the source is
dropped; it never influences the returned values.
-/

namespace Hnefatafl

/-- `enum PieceType { NONE, SHIELD, SWORD, KING }` from `typeDef.h`. -/
inductive PieceType where
  | NONE
  | SHIELD
  | SWORD
  | KING
deriving DecidableEq, Repr

/-- `enum CellType { NORMAL, FORTRESS, CASTLE }` from `typeDef.h`. -/
inductive CellType where
  | NORMAL
  | FORTRESS
  | CASTLE
deriving DecidableEq, Repr

/-- `struct Cell` from `typeDef.h`. -/
structure Cell where
  itsCellType : CellType
  itsPieceType : PieceType
deriving DecidableEq, Repr

/-- `struct Board` from `typeDef.h`.  The C++ `Cell** itsCells` array of
`itsSize × itsSize` cells is modelled as a total function on `Nat`
coordinates; only the cells with both coordinates `< itsSize` correspond
to allocated C++ memory. -/
structure Board where
  itsSize : Nat
  itsCells : Nat → Nat → Cell

/-- `struct Position` from `typeDef.h` (C++ `int` coordinates). -/
structure Position where
  itsRow : Int
  itsCol : Int
deriving DecidableEq, Repr

/-- `struct Move` from `typeDef.h`. -/
structure Move where
  itsStartPosition : Position
  itsEndPosition : Position
deriving DecidableEq, Repr

/-- `enum PlayerRole { ATTACK, DEFENSE }` from `typeDef.h`. -/
inductive PlayerRole where
  | ATTACK
  | DEFENSE
deriving DecidableEq, Repr

/-- `struct Player` from `typeDef.h`. -/
structure Player where
  itsName : String
  itsRole : PlayerRole
deriving DecidableEq, Repr

/-- Which of the two players the C++ pointer `itsCurrentPlayer` points at. -/
inductive PlayerSelect where
  | P1
  | P2
deriving DecidableEq, Repr

/-- `struct Game` from `typeDef.h`.  The pointer `itsCurrentPlayer` is
modelled by a selector into the two player fields. -/
structure Game where
  itsBoard : Board
  itsPlayer1 : Player
  itsPlayer2 : Player
  itsCurrentPlayer : PlayerSelect

/-- Dereference the `itsCurrentPlayer` pointer. -/
def currentPlayer (aGame : Game) : Player :=
  match aGame.itsCurrentPlayer with
  | PlayerSelect.P1 => aGame.itsPlayer1
  | PlayerSelect.P2 => aGame.itsPlayer2

/-- In-bounds predicate for a raw C++ access `itsCells[r][c]`. -/
def inGrid (aBoard : Board) (r c : Int) : Prop :=
  0 ≤ r ∧ r < (aBoard.itsSize : Int) ∧ 0 ≤ c ∧ c < (aBoard.itsSize : Int)

instance (aBoard : Board) (r c : Int) : Decidable (inGrid aBoard r c) := by
  unfold inGrid
  infer_instance

/-- A raw C++ read `itsCells[r][c]`: `none` when the access would be out
of the allocated grid (undefined behaviour in the C++ source). -/
def getCell (aBoard : Board) (r c : Int) : Option Cell :=
  if inGrid aBoard r c then some (aBoard.itsCells r.toNat c.toNat) else none

/-- `itsCells[r][c].itsPieceType` as an `Option`-valued read. -/
def pieceAt (aBoard : Board) (r c : Int) : Option PieceType :=
  (getCell aBoard r c).map Cell.itsPieceType

/-- `itsCells[r][c].itsCellType` as an `Option`-valued read. -/
def typeAt (aBoard : Board) (r c : Int) : Option CellType :=
  (getCell aBoard r c).map Cell.itsCellType

/-- A write `itsCells[r][c].itsPieceType = p` at `Int` coordinates;
identity when the C++ write would be out of the allocated grid. -/
def setPieceAt (aBoard : Board) (r c : Int) (p : PieceType) : Board :=
  if inGrid aBoard r c then
    { aBoard with
      itsCells := fun r' c' =>
        if r' = r.toNat ∧ c' = c.toNat then
          { aBoard.itsCells r' c' with itsPieceType := p }
        else aBoard.itsCells r' c' }
  else aBoard

/-- A write `itsCells[r][c] = cell` at loop (`Nat`) coordinates, as used
by `initializeBoard`, whose loop indices are always in range. -/
def setCellN (aBoard : Board) (r c : Nat) (cell : Cell) : Board :=
  { aBoard with
    itsCells := fun r' c' => if r' = r ∧ c' = c then cell else aBoard.itsCells r' c' }

/-- A write `itsCells[r][c].itsPieceType = p` at loop (`Nat`) coordinates. -/
def setPieceN (aBoard : Board) (r c : Nat) (p : PieceType) : Board :=
  { aBoard with
    itsCells := fun r' c' =>
      if r' = r ∧ c' = c then { aBoard.itsCells r' c' with itsPieceType := p }
      else aBoard.itsCells r' c' }

/-- `isValidPosition` (functions.cpp:424): both coordinates in `[0, SIZE)`.
The console message printed on failure is dropped. -/
def isValidPosition (aPos : Position) (aBoard : Board) : Bool :=
  decide (0 ≤ aPos.itsCol ∧ aPos.itsCol < (aBoard.itsSize : Int) ∧
          0 ≤ aPos.itsRow ∧ aPos.itsRow < (aBoard.itsSize : Int))

/-- The C++ local `min` of `isValidMovement`: `if (start < end) min = start
else min = end`. -/
def minInt (a b : Int) : Int := if a < b then a else b

/-- The C++ local `max` of `isValidMovement`. -/
def maxInt (a b : Int) : Int := if a < b then b else a

/-- The column-move path loop of `isValidMovement` (functions.cpp:566):
`for (int i = min+1; i <= max; i++)`, true iff some visited cell holds a
piece or is not NORMAL.  Note the C++ upper bound is `max` itself,
inclusive. -/
def colPathBlocked (b : Board) (col lo hi : Int) : Bool :=
  (List.range (hi - lo).toNat).any fun k =>
    decide (pieceAt b (lo + 1 + (k : Int)) col ≠ some PieceType.NONE ∨
            typeAt b (lo + 1 + (k : Int)) col ≠ some CellType.NORMAL)

/-- The row-move path loop of `isValidMovement` (functions.cpp:584),
with the same inclusive upper bound. -/
def rowPathBlocked (b : Board) (row lo hi : Int) : Bool :=
  (List.range (hi - lo).toNat).any fun k =>
    decide (pieceAt b row (lo + 1 + (k : Int)) ≠ some PieceType.NONE ∨
            typeAt b row (lo + 1 + (k : Int)) ≠ some CellType.NORMAL)

/-- `isValidMovement` (functions.cpp:512).  The chain of early `return
false` statements becomes a chain of `if` expressions. -/
def isValidMovement (aGame : Game) (aMove : Move) : Bool :=
  if aMove.itsEndPosition.itsRow < 0 ∨
     aMove.itsEndPosition.itsRow ≥ (aGame.itsBoard.itsSize : Int) ∨
     aMove.itsEndPosition.itsCol < 0 ∨
     aMove.itsEndPosition.itsCol ≥ (aGame.itsBoard.itsSize : Int) ∨
     aMove.itsStartPosition.itsRow < 0 ∨
     aMove.itsStartPosition.itsRow ≥ (aGame.itsBoard.itsSize : Int) ∨
     aMove.itsStartPosition.itsCol < 0 ∨
     aMove.itsStartPosition.itsCol ≥ (aGame.itsBoard.itsSize : Int) then
    false
  else if (currentPlayer aGame).itsRole = PlayerRole.ATTACK ∧
          pieceAt aGame.itsBoard aMove.itsStartPosition.itsRow
            aMove.itsStartPosition.itsCol ≠ some PieceType.SWORD then
    false
  else if (currentPlayer aGame).itsRole = PlayerRole.DEFENSE ∧
          (pieceAt aGame.itsBoard aMove.itsStartPosition.itsRow
             aMove.itsStartPosition.itsCol = some PieceType.SWORD ∨
           pieceAt aGame.itsBoard aMove.itsStartPosition.itsRow
             aMove.itsStartPosition.itsCol = some PieceType.NONE) then
    false
  else if pieceAt aGame.itsBoard aMove.itsStartPosition.itsRow
            aMove.itsStartPosition.itsCol ≠ some PieceType.KING ∧
          (typeAt aGame.itsBoard aMove.itsEndPosition.itsRow
             aMove.itsEndPosition.itsCol = some CellType.FORTRESS ∨
           typeAt aGame.itsBoard aMove.itsEndPosition.itsRow
             aMove.itsEndPosition.itsCol = some CellType.CASTLE) then
    false
  else if aMove.itsEndPosition.itsCol = aMove.itsStartPosition.itsCol ∧
          aMove.itsEndPosition.itsRow = aMove.itsStartPosition.itsRow then
    false
  else if aMove.itsEndPosition.itsCol = aMove.itsStartPosition.itsCol then
    if pieceAt aGame.itsBoard aMove.itsEndPosition.itsRow
         aMove.itsStartPosition.itsCol ≠ some PieceType.NONE then
      false
    else if colPathBlocked aGame.itsBoard aMove.itsStartPosition.itsCol
              (minInt aMove.itsStartPosition.itsRow aMove.itsEndPosition.itsRow)
              (maxInt aMove.itsStartPosition.itsRow aMove.itsEndPosition.itsRow) then
      false
    else
      true
  else if aMove.itsEndPosition.itsRow = aMove.itsStartPosition.itsRow then
    if rowPathBlocked aGame.itsBoard aMove.itsStartPosition.itsRow
         (minInt aMove.itsStartPosition.itsCol aMove.itsEndPosition.itsCol)
         (maxInt aMove.itsStartPosition.itsCol aMove.itsEndPosition.itsCol) then
      false
    else
      true
  else
    false

/-- `movePiece` (functions.cpp:610).  The raw read of the start cell is
`Option`-valued; `getD NONE` stands for the (undefined) C++ value when
the start position is outside the grid. -/
def movePiece (aGame : Game) (aMove : Move) : Game :=
  let piece := (pieceAt aGame.itsBoard aMove.itsStartPosition.itsRow
                  aMove.itsStartPosition.itsCol).getD PieceType.NONE
  let b1 := setPieceAt aGame.itsBoard aMove.itsStartPosition.itsRow
              aMove.itsStartPosition.itsCol PieceType.NONE
  let b2 := setPieceAt b1 aMove.itsEndPosition.itsRow
              aMove.itsEndPosition.itsCol piece
  { aGame with itsBoard := b2 }

/-- `constexpr Position aroundCells[4]` of `capturePieces`
(functions.cpp:629): offsets `{0,-1},{0,1},{-1,0},{1,0}`. -/
def aroundCells : List Position :=
  [⟨0, -1⟩, ⟨0, 1⟩, ⟨-1, 0⟩, ⟨1, 0⟩]

/-- The DEFENSE block of the direction loop of `capturePieces`
(functions.cpp:631), translated condition for condition, including the
source's bounds test that mixes `itsRow` and `itsCol` of the direction
offset, the duplicated edge disjunct
`itsEndPosition.itsRow + arroundCell.itsCol == SIZE-1`, and the C++
`&&`-over-`||` precedence in the final `CASTLE && NONE` disjunct. -/
def defenseStep (SIZE eR eC : Int) (bd : Board) (d : Position) : Board :=
  if 0 ≤ eR + d.itsRow ∧ eR + d.itsCol < SIZE ∧
     0 ≤ eC + d.itsCol ∧ eC + d.itsCol < SIZE then
    if pieceAt bd (eR + d.itsRow) (eC + d.itsCol) = some PieceType.SWORD then
      if eR + d.itsRow = 0 ∨ eR + d.itsCol = SIZE - 1 ∨
         eC + d.itsCol = 0 ∨ eR + d.itsCol = SIZE - 1 ∨
         pieceAt bd (eR + 2*d.itsRow) (eC + 2*d.itsCol) = some PieceType.SHIELD ∨
         pieceAt bd (eR + 2*d.itsRow) (eC + 2*d.itsCol) = some PieceType.KING ∨
         typeAt bd (eR + 2*d.itsRow) (eC + 2*d.itsCol) = some CellType.FORTRESS ∨
         (typeAt bd (eR + 2*d.itsRow) (eC + 2*d.itsCol) = some CellType.CASTLE ∧
          pieceAt bd (eR + 2*d.itsRow) (eC + 2*d.itsCol) = some PieceType.NONE) then
        setPieceAt bd (eR + d.itsRow) (eC + d.itsCol) PieceType.NONE
      else bd
    else bd
  else bd

/-- The ATTACK block of the direction loop of `capturePieces`
(functions.cpp:654): target piece SHIELD, assistants SWORD / FORTRESS /
empty CASTLE, same (garbled) bounds test and edge disjuncts. -/
def attackStep (SIZE eR eC : Int) (bd : Board) (d : Position) : Board :=
  if 0 ≤ eR + d.itsRow ∧ eR + d.itsCol < SIZE ∧
     0 ≤ eC + d.itsCol ∧ eC + d.itsCol < SIZE then
    if pieceAt bd (eR + d.itsRow) (eC + d.itsCol) = some PieceType.SHIELD then
      if eR + d.itsRow = 0 ∨ eR + d.itsCol = SIZE - 1 ∨
         eC + d.itsCol = 0 ∨ eR + d.itsCol = SIZE - 1 ∨
         pieceAt bd (eR + 2*d.itsRow) (eC + 2*d.itsCol) = some PieceType.SWORD ∨
         typeAt bd (eR + 2*d.itsRow) (eC + 2*d.itsCol) = some CellType.FORTRESS ∨
         (typeAt bd (eR + 2*d.itsRow) (eC + 2*d.itsCol) = some CellType.CASTLE ∧
          pieceAt bd (eR + 2*d.itsRow) (eC + 2*d.itsCol) = some PieceType.NONE) then
        setPieceAt bd (eR + d.itsRow) (eC + d.itsCol) PieceType.NONE
      else bd
    else bd
  else bd

/-- `capturePieces` (functions.cpp:626): the two role blocks run in
source order, each folding the four directions over the mutated board. -/
def capturePieces (aGame : Game) (aMove : Move) : Game :=
  let SIZE : Int := aGame.itsBoard.itsSize
  let eR := aMove.itsEndPosition.itsRow
  let eC := aMove.itsEndPosition.itsCol
  let b1 := if (currentPlayer aGame).itsRole = PlayerRole.DEFENSE then
              aroundCells.foldl (defenseStep SIZE eR eC) aGame.itsBoard
            else aGame.itsBoard
  let b2 := if (currentPlayer aGame).itsRole = PlayerRole.ATTACK then
              aroundCells.foldl (attackStep SIZE eR eC) b1
            else b1
  { aGame with itsBoard := b2 }

/-- `isSwordLeft` (functions.cpp:704): row-major scan for a SWORD. -/
def isSwordLeft (aBoard : Board) : Bool :=
  (List.range aBoard.itsSize).any fun line =>
    (List.range aBoard.itsSize).any fun col =>
      (aBoard.itsCells line col).itsPieceType = PieceType.SWORD

/-- `getKingPosition` (functions.cpp:724): first KING in row-major order,
`{-1, -1}` when absent. -/
def getKingPosition (aBoard : Board) : Position :=
  match (List.range aBoard.itsSize).findSome? (fun line =>
      (List.range aBoard.itsSize).findSome? (fun col =>
        if (aBoard.itsCells line col).itsPieceType = PieceType.KING then
          some (⟨(line : Int), (col : Int)⟩ : Position)
        else none)) with
  | some p => p
  | none => ⟨-1, -1⟩

/-- `isKingEscaped` (functions.cpp:744). -/
def isKingEscaped (aBoard : Board) : Bool :=
  let kingCoords := getKingPosition aBoard
  if kingCoords.itsRow = -1 then false
  else typeAt aBoard kingCoords.itsRow kingCoords.itsCol = some CellType.FORTRESS

/-- The counting loop of `isKingCapturedSimple` (functions.cpp:779):
`none` models the early `return false` on a non-hostile neighbour,
`some count` the count accumulated over the whole array. -/
def kingAroundLoop (aBoard : Board) (SIZE : Int) :
    List Position → Nat → Option Nat
  | [], count => some count
  | cardPoint :: rest, count =>
    if cardPoint.itsCol < 0 ∨ cardPoint.itsCol ≥ SIZE ∨
       cardPoint.itsRow < 0 ∨ cardPoint.itsRow ≥ SIZE then
      kingAroundLoop aBoard SIZE rest (count + 1)
    else if pieceAt aBoard cardPoint.itsRow cardPoint.itsCol = some PieceType.SWORD ∨
            typeAt aBoard cardPoint.itsRow cardPoint.itsCol = some CellType.CASTLE ∨
            typeAt aBoard cardPoint.itsRow cardPoint.itsCol = some CellType.FORTRESS then
      kingAroundLoop aBoard SIZE rest (count + 1)
    else
      none

/-- The `kingArounds[4]` array of `isKingCapturedSimple`
(functions.cpp:772), built from a king position. -/
def kingArounds (kingPos : Position) : List Position :=
  [⟨kingPos.itsRow, kingPos.itsCol + 1⟩,
   ⟨kingPos.itsRow, kingPos.itsCol - 1⟩,
   ⟨kingPos.itsRow + 1, kingPos.itsCol⟩,
   ⟨kingPos.itsRow - 1, kingPos.itsCol⟩]

/-- `isKingCapturedSimple` (functions.cpp:765). -/
def isKingCapturedSimple (aBoard : Board) : Bool :=
  let SIZE : Int := aBoard.itsSize
  let kingPos := getKingPosition aBoard
  if kingPos.itsRow = -1 then false
  else
    match kingAroundLoop aBoard SIZE (kingArounds kingPos) 0 with
    | some count => decide (count = 4)
    | none => false

/-- The `checkArray[4]` of `isKingCapturedRecursive` (functions.cpp:848):
the same four offsets as `aroundCells`.  Note the source's loop feeds
these OFFSETS directly to `isValidPosition` and the cell accesses. -/
def checkArray : List Position :=
  [⟨0, -1⟩, ⟨0, 1⟩, ⟨-1, 0⟩, ⟨1, 0⟩]

/-- The king-position resolution at the top of `isKingCapturedRecursive`
(functions.cpp:816): the sentinel `{-1,-1}` default argument is replaced
by `getKingPosition`. -/
def resolveKingPos (aBoard : Board) (aKingPos : Position) : Position :=
  if aKingPos.itsCol = -1 then getKingPosition aBoard else aKingPos

/-- The freshly allocated all-`false` tracking array of
`isKingCapturedRecursive` (functions.cpp:825). -/
def freshVisited : Nat → Nat → Bool := fun _ _ => false

/-- The write `isCellChecked[aKingPos.itsRow][aKingPos.itsRow] = true`
(functions.cpp:846; the source indexes the row twice). -/
def markVisited (v : Nat → Nat → Bool) (r c : Nat) : Nat → Nat → Bool :=
  fun r' c' => if r' = r ∧ c' = c then true else v r' c'

/-- Body of `isKingCapturedRecursive` (functions.cpp:811), with explicit
fuel for the recursion (the C++ has no termination argument; the fuel is
never consumed in practice because every call returns before recursing).
The freshly reallocated `isCellChecked` array of the source is the
all-`false` `freshVisited` rebound on every call, overwriting the passed
argument exactly as the source does; deallocation is dropped.  The guard
`piece != KING || piece != SHIELD` is kept verbatim from the source, as
is the loop that feeds the direction OFFSETS of `checkArray` to
`isValidPosition` and to the cell accesses. -/
def isKingCapturedGo (aBoard : Board) : Nat → Position → Option (Nat → Nat → Bool) → Bool
  | 0, _, _ => false
  | fuel + 1, aKingPos0, _isCellChecked =>
    if (resolveKingPos aBoard aKingPos0).itsCol = -1 then false
    else if pieceAt aBoard (resolveKingPos aBoard aKingPos0).itsRow
              (resolveKingPos aBoard aKingPos0).itsCol ≠ some PieceType.KING ∨
            pieceAt aBoard (resolveKingPos aBoard aKingPos0).itsRow
              (resolveKingPos aBoard aKingPos0).itsCol ≠ some PieceType.SHIELD then
      false
    else
      checkArray.all fun pos =>
        if isValidPosition pos aBoard = true ∧
           markVisited freshVisited (resolveKingPos aBoard aKingPos0).itsRow.toNat
             (resolveKingPos aBoard aKingPos0).itsRow.toNat
             pos.itsRow.toNat pos.itsCol.toNat = false then
          if pieceAt aBoard pos.itsRow pos.itsCol ≠ some PieceType.SWORD ∧
             typeAt aBoard pos.itsRow pos.itsCol ≠ some CellType.CASTLE ∧
             typeAt aBoard pos.itsRow pos.itsCol ≠ some CellType.FORTRESS then
            isKingCapturedGo aBoard fuel pos
              (some (markVisited freshVisited
                (resolveKingPos aBoard aKingPos0).itsRow.toNat
                (resolveKingPos aBoard aKingPos0).itsRow.toNat))
          else true
        else true

/-- `isKingCapturedRecursive` called with its default arguments
(`aKingPos = {-1,-1}`, `isCellChecked = nullptr`, functions.h:261). -/
def isKingCapturedRecursive (aBoard : Board) : Bool :=
  isKingCapturedGo aBoard (aBoard.itsSize * aBoard.itsSize + 1) ⟨-1, -1⟩ none

/-- `isGameFinished` (functions.cpp:889). -/
def isGameFinished (aGame : Game) : Bool :=
  if isKingCapturedSimple aGame.itsBoard = true ∨
     isKingEscaped aGame.itsBoard = true ∨
     isSwordLeft aGame.itsBoard = false then
    true
  else
    false

/-- `whoWon` (functions.cpp:909): pointer results become `Option Player`. -/
def whoWon (aGame : Game) : Option Player :=
  if isKingCapturedSimple aGame.itsBoard = true then
    some aGame.itsPlayer1
  else if isSwordLeft aGame.itsBoard = false then
    some aGame.itsPlayer2
  else if isKingEscaped aGame.itsBoard = true then
    some aGame.itsPlayer2
  else
    none

/-- First double loop of `initializeBoard` (functions.cpp:333): cell
kinds and cleared pieces.  The always-true `itsCells != nullptr` guard of
the source is dropped (the functional board is total). -/
def initPass1 (SIZE : Nat) (aBoard : Board) : Board :=
  (List.range SIZE).foldl (fun acc line =>
    (List.range SIZE).foldl (fun acc2 column =>
      if line = SIZE / 2 ∧ column = SIZE / 2 then
        setCellN acc2 line column ⟨CellType.CASTLE, PieceType.KING⟩
      else if (line = 0 ∨ line = SIZE - 1) ∧ (column = 0 ∨ column = SIZE - 1) then
        setCellN acc2 line column ⟨CellType.FORTRESS, PieceType.NONE⟩
      else
        setCellN acc2 line column ⟨CellType.NORMAL, PieceType.NONE⟩) acc) aBoard

/-- First `if` of the `SIZE == 11` placement loop of `initializeBoard`
(functions.cpp:362), with `LITTLE_CENTER = 5`: the shields beside the
king, together with the mirrored coordinates. -/
def initBody11a (SIZE line column : Nat) (acc : Board) : Board :=
  if line = 5 ∧ column ≠ 5 ∧ 5 - 2 ≤ column ∧ column ≤ 5 + 2 then
    setPieceN (setPieceN acc line column PieceType.SHIELD) column line PieceType.SHIELD
  else acc

/-- Second `if` (functions.cpp:368): the shields on the king's diagonals. -/
def initBody11b (SIZE line column : Nat) (acc : Board) : Board :=
  if (line = 5 - 1 ∨ line = 5 + 1) ∧ (column = 5 - 1 ∨ column = 5 + 1) then
    setPieceN acc line column PieceType.SHIELD
  else acc

/-- Third `if` (functions.cpp:373): the edge swords, with mirrors. -/
def initBody11c (SIZE line column : Nat) (acc : Board) : Board :=
  if (line = 0 ∨ line = SIZE - 1) ∧ 2 < column ∧ column < 8 then
    setPieceN (setPieceN acc line column PieceType.SWORD) column line PieceType.SWORD
  else acc

/-- Fourth `if` (functions.cpp:378): the midline swords, with mirrors. -/
def initBody11d (SIZE line column : Nat) (acc : Board) : Board :=
  if line = 5 ∧ (column = 1 ∨ column = 9) then
    setPieceN (setPieceN acc line column PieceType.SWORD) column line PieceType.SWORD
  else acc

/-- Loop body of the `SIZE == 11` placement loop of `initializeBoard`
(functions.cpp:358): the four sequential independent `if` statements. -/
def initBody11 (SIZE line column : Nat) (acc : Board) : Board :=
  initBody11d SIZE line column
    (initBody11c SIZE line column
      (initBody11b SIZE line column
        (initBody11a SIZE line column acc)))

/-- First `if` of the `SIZE == 13` placement loop of `initializeBoard`
(functions.cpp:391), with `BIG_CENTER = 6`. -/
def initBody13a (SIZE line column : Nat) (acc : Board) : Board :=
  if line = 6 ∧ column ≠ 6 ∧ 6 - 3 ≤ column ∧ column ≤ 6 + 3 then
    setPieceN (setPieceN acc line column PieceType.SHIELD) column line PieceType.SHIELD
  else acc

/-- Second `if` (functions.cpp:397): the edge swords, with mirrors. -/
def initBody13b (SIZE line column : Nat) (acc : Board) : Board :=
  if (line = 0 ∨ line = SIZE - 1) ∧ 3 < column ∧ column < 9 then
    setPieceN (setPieceN acc line column PieceType.SWORD) column line PieceType.SWORD
  else acc

/-- Third `if` (functions.cpp:401): the midline swords, with mirrors. -/
def initBody13c (SIZE line column : Nat) (acc : Board) : Board :=
  if line = 6 ∧ (column = 1 ∨ column = 11) then
    setPieceN (setPieceN acc line column PieceType.SWORD) column line PieceType.SWORD
  else acc

/-- Loop body of the `SIZE == 13` placement loop of `initializeBoard`
(functions.cpp:387): the three sequential independent `if` statements. -/
def initBody13 (SIZE line column : Nat) (acc : Board) : Board :=
  initBody13c SIZE line column
    (initBody13b SIZE line column
      (initBody13a SIZE line column acc))

/-- `initializeBoard` (functions.cpp:329): the reset pass, then the
size-specific placement double loop (`if SIZE == 11 ... else if SIZE == 13`). -/
def initializeBoard (aBoard : Board) : Board :=
  if aBoard.itsSize = 11 then
    (List.range aBoard.itsSize).foldl (fun acc line =>
      (List.range aBoard.itsSize).foldl (fun acc2 column =>
        initBody11 aBoard.itsSize line column acc2) acc)
      (initPass1 aBoard.itsSize aBoard)
  else if aBoard.itsSize = 13 then
    (List.range aBoard.itsSize).foldl (fun acc line =>
      (List.range aBoard.itsSize).foldl (fun acc2 column =>
        initBody13 aBoard.itsSize line column acc2) acc)
      (initPass1 aBoard.itsSize aBoard)
  else
    initPass1 aBoard.itsSize aBoard

/-- Number of cells of the board's allocated grid holding piece `p`. -/
def countPiece (aBoard : Board) (p : PieceType) : Nat :=
  ((List.range aBoard.itsSize).map (fun r =>
    ((List.range aBoard.itsSize).filter (fun c =>
      (aBoard.itsCells r c).itsPieceType = p)).length)).sum

/-- Number of cells of the board's allocated grid of cell kind `t`. -/
def countType (aBoard : Board) (t : CellType) : Nat :=
  ((List.range aBoard.itsSize).map (fun r =>
    ((List.range aBoard.itsSize).filter (fun c =>
      (aBoard.itsCells r c).itsCellType = t)).length)).sum

/-! ## Specification-side predicates and auxiliary definitions -/

/-- The hostility predicate of the specification of the simple capture
check: a neighbour position is hostile exactly when it is out of bounds,
or holds a SWORD piece, or has CellKind FORTRESS or CASTLE regardless of
what occupies it. -/
def hostileSpec (aBoard : Board) (p : Position) : Prop :=
  ¬ inGrid aBoard p.itsRow p.itsCol ∨
  pieceAt aBoard p.itsRow p.itsCol = some PieceType.SWORD ∨
  typeAt aBoard p.itsRow p.itsCol = some CellType.FORTRESS ∨
  typeAt aBoard p.itsRow p.itsCol = some CellType.CASTLE

instance (aBoard : Board) (p : Position) : Decidable (hostileSpec aBoard p) := by
  unfold hostileSpec
  infer_instance

/-- The value written to cell `(line, column)` by the reset pass of
`initializeBoard`: CASTLE and KING at the centre, FORTRESS at the four
corners, NORMAL and empty elsewhere. -/
def pass1Val (SIZE line column : Nat) : Cell :=
  if line = SIZE / 2 ∧ column = SIZE / 2 then ⟨CellType.CASTLE, PieceType.KING⟩
  else if (line = 0 ∨ line = SIZE - 1) ∧ (column = 0 ∨ column = SIZE - 1) then
    ⟨CellType.FORTRESS, PieceType.NONE⟩
  else ⟨CellType.NORMAL, PieceType.NONE⟩

/-- Two cell grids agree on every cell of the allocated `N × N` square. -/
def AgreeC (N : Nat) (f g : Nat → Nat → Cell) : Prop :=
  ∀ r c, r < N → c < N → f r c = g r c

/-- A board access audit for `capturePieces`, transcribed from the same
access sites of the source (functions.cpp:626): `true` iff, for every
direction whose (garbled) bounds guard passes, the adjacent-cell read is
inside the allocated grid, and — when the adjacent cell holds the target
piece and no short-circuiting edge disjunct is true — the beyond-cell
read is inside the allocated grid as well. -/
def capAccessesInBounds (aGame : Game) (aMove : Move) : Bool :=
  let SIZE : Int := aGame.itsBoard.itsSize
  let eR := aMove.itsEndPosition.itsRow
  let eC := aMove.itsEndPosition.itsCol
  let check : PieceType → Bool := fun target =>
    aroundCells.all fun d =>
      if 0 ≤ eR + d.itsRow ∧ eR + d.itsCol < SIZE ∧
         0 ≤ eC + d.itsCol ∧ eC + d.itsCol < SIZE then
        decide (inGrid aGame.itsBoard (eR + d.itsRow) (eC + d.itsCol)) &&
          (if pieceAt aGame.itsBoard (eR + d.itsRow) (eC + d.itsCol) = some target then
            (if eR + d.itsRow = 0 ∨ eR + d.itsCol = SIZE - 1 ∨
                eC + d.itsCol = 0 ∨ eR + d.itsCol = SIZE - 1 then true
             else decide (inGrid aGame.itsBoard (eR + 2*d.itsRow) (eC + 2*d.itsCol)))
           else true)
      else true
  (if (currentPlayer aGame).itsRole = PlayerRole.DEFENSE then check PieceType.SWORD
   else true) &&
  (if (currentPlayer aGame).itsRole = PlayerRole.ATTACK then check PieceType.SHIELD
   else true)

/-! ## Concrete fixtures -/

/-- An `n × n` board whose every cell is NORMAL and empty. -/
def emptyB (n : Nat) : Board :=
  ⟨n, fun _ _ => ⟨CellType.NORMAL, PieceType.NONE⟩⟩

/-- The attacking player (role assignment of `typeDef.h`). -/
def pATT : Player := ⟨"Player 1", PlayerRole.ATTACK⟩

/-- The defending player (role assignment of `typeDef.h`). -/
def pDEF : Player := ⟨"Player 2", PlayerRole.DEFENSE⟩

/-- 11×11 board with a single SWORD at (5,5), all cells NORMAL. -/
def bLoneSword : Board :=
  { emptyB 11 with itsCells := fun r c =>
      if r = 5 ∧ c = 5 then ⟨CellType.NORMAL, PieceType.SWORD⟩
      else ⟨CellType.NORMAL, PieceType.NONE⟩ }

/-- Game: ATTACK to move on `bLoneSword`. -/
def gLoneSword : Game := ⟨bLoneSword, pATT, pDEF, PlayerSelect.P1⟩

/-- A legal rightward SWORD move on `bLoneSword`. -/
def mLoneSword : Move := ⟨⟨5, 5⟩, ⟨5, 8⟩⟩

/-- 11×11 board with the KING at (8,0), fortress corners, all other
cells NORMAL and empty. -/
def bKingNearCorner : Board :=
  { emptyB 11 with itsCells := fun r c =>
      if r = 8 ∧ c = 0 then ⟨CellType.NORMAL, PieceType.KING⟩
      else if (r = 0 ∨ r = 10) ∧ (c = 0 ∨ c = 10) then ⟨CellType.FORTRESS, PieceType.NONE⟩
      else ⟨CellType.NORMAL, PieceType.NONE⟩ }

/-- Game: DEFENSE to move on `bKingNearCorner`. -/
def gKingNearCorner : Game := ⟨bKingNearCorner, pATT, pDEF, PlayerSelect.P2⟩

/-- Post-move 11×11 board: the attacking SWORD has just arrived at
(0,5); a SHIELD stands at (0,4); the beyond cell (0,3) is empty NORMAL. -/
def bEdgeCapture : Board :=
  { emptyB 11 with itsCells := fun r c =>
      if r = 0 ∧ c = 5 then ⟨CellType.NORMAL, PieceType.SWORD⟩
      else if r = 0 ∧ c = 4 then ⟨CellType.NORMAL, PieceType.SHIELD⟩
      else ⟨CellType.NORMAL, PieceType.NONE⟩ }

/-- Game: ATTACK just moved on `bEdgeCapture`. -/
def gEdgeCapture : Game := ⟨bEdgeCapture, pATT, pDEF, PlayerSelect.P1⟩

/-- The move that brought the SWORD from (0,7) to (0,5). -/
def mEdgeCapture : Move := ⟨⟨0, 7⟩, ⟨0, 5⟩⟩

/-- Like `bEdgeCapture` but with a friendly SHIELD on the beyond cell
(0,3) protecting the SHIELD at (0,4). -/
def bShieldBeyond : Board :=
  { emptyB 11 with itsCells := fun r c =>
      if r = 0 ∧ c = 5 then ⟨CellType.NORMAL, PieceType.SWORD⟩
      else if r = 0 ∧ (c = 4 ∨ c = 3) then ⟨CellType.NORMAL, PieceType.SHIELD⟩
      else ⟨CellType.NORMAL, PieceType.NONE⟩ }

/-- Game: ATTACK just moved on `bShieldBeyond`. -/
def gShieldBeyond : Game := ⟨bShieldBeyond, pATT, pDEF, PlayerSelect.P1⟩

/-- 11×11 board with the KING at (2,2) surrounded orthogonally by four
SWORDs — the enclosed-king scenario of the specification. -/
def bEnclosed : Board :=
  { emptyB 11 with itsCells := fun r c =>
      if r = 2 ∧ c = 2 then ⟨CellType.NORMAL, PieceType.KING⟩
      else if (r = 1 ∧ c = 2) ∨ (r = 3 ∧ c = 2) ∨ (r = 2 ∧ c = 1) ∨ (r = 2 ∧ c = 3) then
        ⟨CellType.NORMAL, PieceType.SWORD⟩
      else ⟨CellType.NORMAL, PieceType.NONE⟩ }

/-- Game over `bEnclosed`, ATTACK to move. -/
def gEnclosed : Game := ⟨bEnclosed, pATT, pDEF, PlayerSelect.P1⟩

/-- Game: ATTACK has just moved a SWORD from (9,5) to (10,5) on an empty
11×11 board — a destination on the last row. -/
def gLastRow : Game :=
  ⟨{ emptyB 11 with itsCells := fun r c =>
      if r = 10 ∧ c = 5 then ⟨CellType.NORMAL, PieceType.SWORD⟩
      else ⟨CellType.NORMAL, PieceType.NONE⟩ }, pATT, pDEF, PlayerSelect.P1⟩

/-- The move onto the last row used with `gLastRow`. -/
def mLastRow : Move := ⟨⟨9, 5⟩, ⟨10, 5⟩⟩

/-! ## Cell-kind preservation -/

theorem setPieceAt_cellType (b : Board) (r c : Int) (p : PieceType) (r' c' : Nat) :
    ((setPieceAt b r c p).itsCells r' c').itsCellType = (b.itsCells r' c').itsCellType := by
  unfold setPieceAt
  split
  · dsimp only
    split
    · rfl
    · rfl
  · rfl

theorem setPieceAt_itsSize (b : Board) (r c : Int) (p : PieceType) :
    (setPieceAt b r c p).itsSize = b.itsSize := by
  unfold setPieceAt
  split <;> rfl

theorem foldl_pres_cellType {β : Type} (f : Board → β → Board)
    (hf : ∀ bd x r c, ((f bd x).itsCells r c).itsCellType = (bd.itsCells r c).itsCellType)
    (l : List β) : ∀ (b : Board) (r c : Nat),
    ((l.foldl f b).itsCells r c).itsCellType = (b.itsCells r c).itsCellType := by
  induction l with
  | nil => intro b r c; rfl
  | cons x t ih =>
    intro b r c
    calc ((List.foldl f (f b x) t).itsCells r c).itsCellType
        = ((f b x).itsCells r c).itsCellType := ih (f b x) r c
      _ = (b.itsCells r c).itsCellType := hf b x r c

theorem defenseStep_cellType (SIZE eR eC : Int) (bd : Board) (d : Position) (r c : Nat) :
    ((defenseStep SIZE eR eC bd d).itsCells r c).itsCellType = (bd.itsCells r c).itsCellType := by
  unfold defenseStep
  split
  · split
    · split
      · exact setPieceAt_cellType ..
      · rfl
    · rfl
  · rfl

theorem attackStep_cellType (SIZE eR eC : Int) (bd : Board) (d : Position) (r c : Nat) :
    ((attackStep SIZE eR eC bd d).itsCells r c).itsCellType = (bd.itsCells r c).itsCellType := by
  unfold attackStep
  split
  · split
    · split
      · exact setPieceAt_cellType ..
      · rfl
    · rfl
  · rfl

theorem capturePieces_cellType (aGame : Game) (aMove : Move) (r c : Nat) :
    (((capturePieces aGame aMove).itsBoard.itsCells r c).itsCellType)
      = ((aGame.itsBoard.itsCells r c).itsCellType) := by
  unfold capturePieces
  dsimp only
  have hD : ∀ b : Board,
      ((aroundCells.foldl (defenseStep (aGame.itsBoard.itsSize : Int)
          aMove.itsEndPosition.itsRow aMove.itsEndPosition.itsCol) b).itsCells r c).itsCellType
        = (b.itsCells r c).itsCellType := fun b =>
    foldl_pres_cellType _ (fun bd x r c => defenseStep_cellType _ _ _ bd x r c) aroundCells b r c
  have hA : ∀ b : Board,
      ((aroundCells.foldl (attackStep (aGame.itsBoard.itsSize : Int)
          aMove.itsEndPosition.itsRow aMove.itsEndPosition.itsCol) b).itsCells r c).itsCellType
        = (b.itsCells r c).itsCellType := fun b =>
    foldl_pres_cellType _ (fun bd x r c => attackStep_cellType _ _ _ bd x r c) aroundCells b r c
  split <;> split <;> simp only [hA, hD]

theorem movePiece_cellType (aGame : Game) (aMove : Move) (r c : Nat) :
    (((movePiece aGame aMove).itsBoard.itsCells r c).itsCellType)
      = ((aGame.itsBoard.itsCells r c).itsCellType) := by
  unfold movePiece
  dsimp only
  rw [setPieceAt_cellType, setPieceAt_cellType]

theorem foldl_pres_size {β : Type} (f : Board → β → Board)
    (hf : ∀ b x, (f b x).itsSize = b.itsSize) (l : List β) :
    ∀ b : Board, (l.foldl f b).itsSize = b.itsSize := by
  induction l with
  | nil => intro b; rfl
  | cons x t ih => intro b; rw [List.foldl_cons, ih (f b x), hf]

theorem defenseStep_itsSize (SIZE eR eC : Int) (bd : Board) (d : Position) :
    (defenseStep SIZE eR eC bd d).itsSize = bd.itsSize := by
  unfold defenseStep
  split_ifs <;> first
  | rfl
  | exact setPieceAt_itsSize ..

theorem attackStep_itsSize (SIZE eR eC : Int) (bd : Board) (d : Position) :
    (attackStep SIZE eR eC bd d).itsSize = bd.itsSize := by
  unfold attackStep
  split_ifs <;> first
  | rfl
  | exact setPieceAt_itsSize ..

theorem capturePieces_itsSize (aGame : Game) (aMove : Move) :
    (capturePieces aGame aMove).itsBoard.itsSize = aGame.itsBoard.itsSize := by
  unfold capturePieces
  dsimp only
  have hD : ∀ b : Board,
      (aroundCells.foldl (defenseStep (aGame.itsBoard.itsSize : Int)
          aMove.itsEndPosition.itsRow aMove.itsEndPosition.itsCol) b).itsSize
        = b.itsSize := fun b =>
    foldl_pres_size _ (fun bd x => defenseStep_itsSize _ _ _ bd x) aroundCells b
  have hA : ∀ b : Board,
      (aroundCells.foldl (attackStep (aGame.itsBoard.itsSize : Int)
          aMove.itsEndPosition.itsRow aMove.itsEndPosition.itsCol) b).itsSize
        = b.itsSize := fun b =>
    foldl_pres_size _ (fun bd x => attackStep_itsSize _ _ _ bd x) aroundCells b
  split_ifs <;> simp only [hA, hD]

theorem movePiece_itsSize (aGame : Game) (aMove : Move) :
    (movePiece aGame aMove).itsBoard.itsSize = aGame.itsBoard.itsSize := by
  unfold movePiece
  dsimp only
  rw [setPieceAt_itsSize, setPieceAt_itsSize]

/-- C10: executing `movePiece` followed by `capturePieces` leaves the
`itsCellType` of every cell of the board unchanged (and the board size as
well) — only piece fields are modified. -/
theorem moveAndCapture_preserve_cellTypes (aGame : Game) (aMove : Move) (r c : Nat) :
    ((((capturePieces (movePiece aGame aMove) aMove).itsBoard.itsCells r c).itsCellType)
      = ((aGame.itsBoard.itsCells r c).itsCellType)) ∧
    (capturePieces (movePiece aGame aMove) aMove).itsBoard.itsSize
      = aGame.itsBoard.itsSize := by
  constructor
  · rw [capturePieces_cellType, movePiece_cellType]
  · rw [capturePieces_itsSize, movePiece_itsSize]

/-! ## Game end and winner -/

/-- C6: `isGameFinished` is true exactly when the simple capture check
holds, the King has escaped, or no SWORD remains; `whoWon` names the
attacking player (player 1) on capture, the defending player (player 2)
when no SWORD remains or the King escaped, and is `none` exactly when
`isGameFinished` is false. -/
theorem isGameFinished_whoWon_spec (aGame : Game)
    (h1 : aGame.itsPlayer1.itsRole = PlayerRole.ATTACK)
    (h2 : aGame.itsPlayer2.itsRole = PlayerRole.DEFENSE) :
    (isGameFinished aGame = true ↔
      (isKingCapturedSimple aGame.itsBoard = true ∨ isKingEscaped aGame.itsBoard = true ∨
       isSwordLeft aGame.itsBoard = false)) ∧
    (isKingCapturedSimple aGame.itsBoard = true →
      ∃ p, whoWon aGame = some p ∧ p.itsRole = PlayerRole.ATTACK) ∧
    (isKingCapturedSimple aGame.itsBoard = false →
      (isSwordLeft aGame.itsBoard = false ∨ isKingEscaped aGame.itsBoard = true) →
      ∃ p, whoWon aGame = some p ∧ p.itsRole = PlayerRole.DEFENSE) ∧
    (whoWon aGame = none ↔ isGameFinished aGame = false) := by
  unfold isGameFinished whoWon
  cases hc : isKingCapturedSimple aGame.itsBoard <;>
    cases he : isKingEscaped aGame.itsBoard <;>
    cases hs : isSwordLeft aGame.itsBoard <;>
    simp_all

/-- Witness for C6 at the enclosed-king game. -/
theorem isGameFinished_whoWon_spec_witness :
    gEnclosed.itsPlayer1.itsRole = PlayerRole.ATTACK ∧
    gEnclosed.itsPlayer2.itsRole = PlayerRole.DEFENSE ∧
    ((isGameFinished gEnclosed = true ↔
      (isKingCapturedSimple gEnclosed.itsBoard = true ∨
       isKingEscaped gEnclosed.itsBoard = true ∨
       isSwordLeft gEnclosed.itsBoard = false)) ∧
    (isKingCapturedSimple gEnclosed.itsBoard = true →
      ∃ p, whoWon gEnclosed = some p ∧ p.itsRole = PlayerRole.ATTACK) ∧
    (isKingCapturedSimple gEnclosed.itsBoard = false →
      (isSwordLeft gEnclosed.itsBoard = false ∨ isKingEscaped gEnclosed.itsBoard = true) →
      ∃ p, whoWon gEnclosed = some p ∧ p.itsRole = PlayerRole.DEFENSE) ∧
    (whoWon gEnclosed = none ↔ isGameFinished gEnclosed = false)) :=
  ⟨rfl, rfl, isGameFinished_whoWon_spec gEnclosed rfl rfl⟩

/-! ## The simple king-capture check -/

theorem getKingPosition_found (b : Board)
    (h : ∃ r, r < b.itsSize ∧ ∃ c, c < b.itsSize ∧
          (b.itsCells r c).itsPieceType = PieceType.KING) :
    (getKingPosition b).itsRow ≠ -1 := by
  obtain ⟨r, hr, c, hc, hk⟩ := h
  unfold getKingPosition
  split
  · next p hfs =>
    obtain ⟨line, hline, hsome⟩ := List.exists_of_findSome?_eq_some hfs
    obtain ⟨col, hcol, hsome2⟩ := List.exists_of_findSome?_eq_some hsome
    have hp : p = ⟨(line : Int), (col : Int)⟩ := by
      by_cases hkk : (b.itsCells line col).itsPieceType = PieceType.KING
      · rw [if_pos hkk] at hsome2
        exact (Option.some_inj.mp hsome2).symm
      · rw [if_neg hkk] at hsome2
        exact absurd hsome2 (by simp)
    subst hp
    simp only
    omega
  · next hfs =>
    exfalso
    have houter := List.findSome?_eq_none_iff.mp hfs r (List.mem_range.mpr hr)
    have hinner := List.findSome?_eq_none_iff.mp houter c (List.mem_range.mpr hc)
    rw [if_pos hk] at hinner
    exact absurd hinner (by simp)

theorem kingAroundLoop_cons (aBoard : Board) (SIZE : Int) (p : Position)
    (t : List Position) (count : Nat) :
    kingAroundLoop aBoard SIZE (p :: t) count =
      if p.itsCol < 0 ∨ p.itsCol ≥ SIZE ∨ p.itsRow < 0 ∨ p.itsRow ≥ SIZE then
        kingAroundLoop aBoard SIZE t (count + 1)
      else if pieceAt aBoard p.itsRow p.itsCol = some PieceType.SWORD ∨
              typeAt aBoard p.itsRow p.itsCol = some CellType.CASTLE ∨
              typeAt aBoard p.itsRow p.itsCol = some CellType.FORTRESS then
        kingAroundLoop aBoard SIZE t (count + 1)
      else none := rfl

theorem kingAroundLoop_eq (aBoard : Board) (SIZE : Int) :
    ∀ (l : List Position) (count : Nat),
    kingAroundLoop aBoard SIZE l count =
      if ∀ p ∈ l,
          (p.itsCol < 0 ∨ p.itsCol ≥ SIZE ∨ p.itsRow < 0 ∨ p.itsRow ≥ SIZE) ∨
          (pieceAt aBoard p.itsRow p.itsCol = some PieceType.SWORD ∨
           typeAt aBoard p.itsRow p.itsCol = some CellType.CASTLE ∨
           typeAt aBoard p.itsRow p.itsCol = some CellType.FORTRESS)
      then some (count + l.length) else none := by
  intro l
  induction l with
  | nil => intro count; simp [kingAroundLoop]
  | cons p t ih =>
    intro count
    by_cases h1 : p.itsCol < 0 ∨ p.itsCol ≥ SIZE ∨ p.itsRow < 0 ∨ p.itsRow ≥ SIZE
    · rw [kingAroundLoop_cons, if_pos h1, ih]
      by_cases h2 : ∀ q ∈ t,
          (q.itsCol < 0 ∨ q.itsCol ≥ SIZE ∨ q.itsRow < 0 ∨ q.itsRow ≥ SIZE) ∨
          (pieceAt aBoard q.itsRow q.itsCol = some PieceType.SWORD ∨
           typeAt aBoard q.itsRow q.itsCol = some CellType.CASTLE ∨
           typeAt aBoard q.itsRow q.itsCol = some CellType.FORTRESS)
      · rw [if_pos h2, if_pos (by
          intro q hq
          rcases List.mem_cons.mp hq with hq | hq
          · subst hq; exact Or.inl h1
          · exact h2 q hq)]
        simp only [List.length_cons]
        congr 1
        omega
      · rw [if_neg h2, if_neg (by
          intro hall
          exact h2 fun q hq => hall q (List.mem_cons_of_mem p hq))]
    · by_cases h1b : pieceAt aBoard p.itsRow p.itsCol = some PieceType.SWORD ∨
          typeAt aBoard p.itsRow p.itsCol = some CellType.CASTLE ∨
          typeAt aBoard p.itsRow p.itsCol = some CellType.FORTRESS
      · rw [kingAroundLoop_cons, if_neg h1, if_pos h1b, ih]
        by_cases h2 : ∀ q ∈ t,
            (q.itsCol < 0 ∨ q.itsCol ≥ SIZE ∨ q.itsRow < 0 ∨ q.itsRow ≥ SIZE) ∨
            (pieceAt aBoard q.itsRow q.itsCol = some PieceType.SWORD ∨
             typeAt aBoard q.itsRow q.itsCol = some CellType.CASTLE ∨
             typeAt aBoard q.itsRow q.itsCol = some CellType.FORTRESS)
        · rw [if_pos h2, if_pos (by
            intro q hq
            rcases List.mem_cons.mp hq with hq | hq
            · subst hq; exact Or.inr h1b
            · exact h2 q hq)]
          simp only [List.length_cons]
          congr 1
          omega
        · rw [if_neg h2, if_neg (by
            intro hall
            exact h2 fun q hq => hall q (List.mem_cons_of_mem p hq))]
      · rw [kingAroundLoop_cons, if_neg h1, if_neg h1b]
        rw [if_neg (by
          intro hall
          rcases hall p (List.mem_cons_self p t) with h | h
          · exact h1 h
          · exact h1b h)]

theorem hostile_iff (aBoard : Board) (p : Position) :
    ((p.itsCol < 0 ∨ p.itsCol ≥ (aBoard.itsSize : Int) ∨
      p.itsRow < 0 ∨ p.itsRow ≥ (aBoard.itsSize : Int)) ∨
     (pieceAt aBoard p.itsRow p.itsCol = some PieceType.SWORD ∨
      typeAt aBoard p.itsRow p.itsCol = some CellType.CASTLE ∨
      typeAt aBoard p.itsRow p.itsCol = some CellType.FORTRESS)) ↔
    hostileSpec aBoard p := by
  unfold hostileSpec
  have hoob : (p.itsCol < 0 ∨ p.itsCol ≥ (aBoard.itsSize : Int) ∨
      p.itsRow < 0 ∨ p.itsRow ≥ (aBoard.itsSize : Int)) ↔
      ¬ inGrid aBoard p.itsRow p.itsCol := by
    unfold inGrid
    omega
  rw [hoob]
  tauto

/-- C5: on any board containing a King, `isKingCapturedSimple` is true
iff each of the four orthogonal neighbours of the King's position is
hostile (out of bounds, a SWORD, or a FORTRESS or CASTLE cell). -/
theorem isKingCapturedSimple_iff (aBoard : Board)
    (h : ∃ r, r < aBoard.itsSize ∧ ∃ c, c < aBoard.itsSize ∧
          (aBoard.itsCells r c).itsPieceType = PieceType.KING) :
    isKingCapturedSimple aBoard = true ↔
      ∀ p ∈ kingArounds (getKingPosition aBoard), hostileSpec aBoard p := by
  have hk := getKingPosition_found aBoard h
  unfold isKingCapturedSimple
  rw [if_neg hk, kingAroundLoop_eq]
  by_cases hall : ∀ p ∈ kingArounds (getKingPosition aBoard),
      (p.itsCol < 0 ∨ p.itsCol ≥ (aBoard.itsSize : Int) ∨
       p.itsRow < 0 ∨ p.itsRow ≥ (aBoard.itsSize : Int)) ∨
      (pieceAt aBoard p.itsRow p.itsCol = some PieceType.SWORD ∨
       typeAt aBoard p.itsRow p.itsCol = some CellType.CASTLE ∨
       typeAt aBoard p.itsRow p.itsCol = some CellType.FORTRESS)
  · rw [if_pos hall]
    simp only [kingArounds, List.length_cons, List.length_nil]
    constructor
    · intro _ p hp
      exact (hostile_iff aBoard p).mp (hall p hp)
    · intro _
      decide
  · rw [if_neg hall]
    constructor
    · intro hft
      exact absurd hft (by simp)
    · intro hspec
      exact absurd (fun p hp => (hostile_iff aBoard p).mpr (hspec p hp)) hall

/-- Witness for C5 at the enclosed-king board. -/
theorem isKingCapturedSimple_iff_witness :
    (∃ r, r < bEnclosed.itsSize ∧ ∃ c, c < bEnclosed.itsSize ∧
      (bEnclosed.itsCells r c).itsPieceType = PieceType.KING) ∧
    (isKingCapturedSimple bEnclosed = true ↔
      ∀ p ∈ kingArounds (getKingPosition bEnclosed), hostileSpec bEnclosed p) :=
  ⟨⟨2, by decide, 2, by decide, by decide⟩,
   isKingCapturedSimple_iff bEnclosed ⟨2, by decide, 2, by decide, by decide⟩⟩

/-! ## Valid moves have empty destinations -/

theorem rowPathBlocked_false_at {b : Board} {row lo hi : Int}
    (h : rowPathBlocked b row lo hi = false) {i : Int} (h1 : lo < i) (h2 : i ≤ hi) :
    pieceAt b row i = some PieceType.NONE ∧ typeAt b row i = some CellType.NORMAL := by
  unfold rowPathBlocked at h
  have hk := List.any_eq_false.mp h ((i - lo - 1).toNat)
    (List.mem_range.mpr (by omega))
  have hcast : lo + 1 + (((i - lo - 1).toNat : Nat) : Int) = i := by omega
  rw [hcast] at hk
  simp only [decide_eq_true_eq, not_or, not_not] at hk
  exact hk

/-- C9: whenever `isValidMovement` accepts a move, the destination cell
is empty (its piece is NONE) — for horizontal and vertical moves in
either direction. -/
theorem isValidMovement_dest_empty (aGame : Game) (aMove : Move)
    (h : isValidMovement aGame aMove = true) :
    pieceAt aGame.itsBoard aMove.itsEndPosition.itsRow aMove.itsEndPosition.itsCol
      = some PieceType.NONE := by
  unfold isValidMovement at h
  split_ifs at h with hb hatk hdef hspec hsame hcol hdne hcblk hrow hrblk
  · rw [hcol]
    exact not_not.mp hdne
  · have hblk : rowPathBlocked aGame.itsBoard aMove.itsStartPosition.itsRow
        (minInt aMove.itsStartPosition.itsCol aMove.itsEndPosition.itsCol)
        (maxInt aMove.itsStartPosition.itsCol aMove.itsEndPosition.itsCol) = false := by
      revert hrblk
      cases rowPathBlocked aGame.itsBoard aMove.itsStartPosition.itsRow
        (minInt aMove.itsStartPosition.itsCol aMove.itsEndPosition.itsCol)
        (maxInt aMove.itsStartPosition.itsCol aMove.itsEndPosition.itsCol) <;> simp
    by_cases hsc : aMove.itsStartPosition.itsCol < aMove.itsEndPosition.itsCol
    · simp only [minInt, maxInt, if_pos hsc] at hblk
      have hdest := rowPathBlocked_false_at hblk (i := aMove.itsEndPosition.itsCol)
        hsc le_rfl
      rw [hrow]
      exact hdest.1
    · have hlt : aMove.itsEndPosition.itsCol < aMove.itsStartPosition.itsCol := by
        omega
      simp only [minInt, maxInt, if_neg hsc] at hblk
      have hstart := rowPathBlocked_false_at hblk (i := aMove.itsStartPosition.itsCol)
        hlt le_rfl
      exfalso
      cases hrole : (currentPlayer aGame).itsRole with
      | ATTACK =>
        push_neg at hatk
        have hsw := hatk hrole
        rw [hstart.1] at hsw
        simp at hsw
      | DEFENSE =>
        push_neg at hdef
        have hnn := (hdef hrole).2
        exact hnn hstart.1

/-- Witness for C9 on a concrete accepted move. -/
theorem isValidMovement_dest_empty_witness :
    isValidMovement gLoneSword mLoneSword = true ∧
    pieceAt gLoneSword.itsBoard mLoneSword.itsEndPosition.itsRow
      mLoneSword.itsEndPosition.itsCol = some PieceType.NONE :=
  ⟨by decide, isValidMovement_dest_empty gLoneSword mLoneSword (by decide)⟩

/-! ## The recursive king-capture check -/

theorem isKingCapturedGo_succ_false (aBoard : Board) (fuel : Nat) (kp0 : Position)
    (chk : Option (Nat → Nat → Bool)) :
    isKingCapturedGo aBoard (fuel + 1) kp0 chk = false := by
  rw [isKingCapturedGo]
  split_ifs with h1 h2
  · rfl
  · rfl
  · exfalso
    push_neg at h2
    have h3 := h2.1.symm.trans h2.2
    simp at h3

theorem isKingCapturedRecursive_eq_false (aBoard : Board) :
    isKingCapturedRecursive aBoard = false := by
  unfold isKingCapturedRecursive
  exact isKingCapturedGo_succ_false aBoard (aBoard.itsSize * aBoard.itsSize) ⟨-1, -1⟩ none

/-- C2: the enclosure-based capture check can never report a capture —
its entry guard `piece != KING || piece != SHIELD` is a tautology, so
`isKingCapturedRecursive` returns `false` on every board, in particular
on the fully enclosed king of `bEnclosed` (which even the simple check
reports as captured). -/
theorem isKingCapturedRecursive_never_captures :
    (∀ aBoard : Board, isKingCapturedRecursive aBoard = false) ∧
    isKingCapturedRecursive bEnclosed = false ∧
    isKingCapturedSimple bEnclosed = true :=
  ⟨isKingCapturedRecursive_eq_false, isKingCapturedRecursive_eq_false bEnclosed, by decide⟩

/-! ## Concrete refutations of the movement and capture rules -/

/-- C1: a counterexample to "every move satisfying the six legality
rules is accepted".  First conjunct: an upward SWORD move over empty
NORMAL cells to an empty NORMAL destination is rejected (the C++ path
loop `for (i = min+1; i <= max; i++)` runs up to `max` inclusive, and
for a move toward smaller indices `max` is the occupied start cell).
Second conjunct: a downward KING move onto a free corner FORTRESS is
rejected (the same loop includes the destination, whose cell kind is not
NORMAL). -/
theorem isValidMovement_rejects_legal_moves :
    ((currentPlayer gLoneSword).itsRole = PlayerRole.ATTACK ∧
     pieceAt gLoneSword.itsBoard 5 5 = some PieceType.SWORD ∧
     inGrid gLoneSword.itsBoard 5 5 ∧ inGrid gLoneSword.itsBoard 3 5 ∧
     pieceAt gLoneSword.itsBoard 4 5 = some PieceType.NONE ∧
     typeAt gLoneSword.itsBoard 4 5 = some CellType.NORMAL ∧
     pieceAt gLoneSword.itsBoard 3 5 = some PieceType.NONE ∧
     typeAt gLoneSword.itsBoard 3 5 = some CellType.NORMAL ∧
     isValidMovement gLoneSword ⟨⟨5, 5⟩, ⟨3, 5⟩⟩ = false) ∧
    ((currentPlayer gKingNearCorner).itsRole = PlayerRole.DEFENSE ∧
     pieceAt gKingNearCorner.itsBoard 8 0 = some PieceType.KING ∧
     inGrid gKingNearCorner.itsBoard 8 0 ∧ inGrid gKingNearCorner.itsBoard 10 0 ∧
     pieceAt gKingNearCorner.itsBoard 9 0 = some PieceType.NONE ∧
     typeAt gKingNearCorner.itsBoard 9 0 = some CellType.NORMAL ∧
     pieceAt gKingNearCorner.itsBoard 10 0 = some PieceType.NONE ∧
     typeAt gKingNearCorner.itsBoard 10 0 = some CellType.FORTRESS ∧
     isValidMovement gKingNearCorner ⟨⟨8, 0⟩, ⟨10, 0⟩⟩ = false) := by
  decide

/-- C3: a counterexample to the capture characterisation.  The SHIELD at
(0,4), adjacent to the ATTACK destination (0,5), has an in-bounds beyond
cell (0,3) that is empty and NORMAL — none of the capture reasons of the
specification applies — yet `capturePieces` removes it, because the
garbled edge disjunct `itsEndPosition.itsRow + arroundCell.itsRow == 0`
fires on any destination in row 0 for the left direction. -/
theorem capturePieces_spurious_edge_capture :
    pieceAt gEdgeCapture.itsBoard 0 4 = some PieceType.SHIELD ∧
    inGrid gEdgeCapture.itsBoard 0 3 ∧
    pieceAt gEdgeCapture.itsBoard 0 3 = some PieceType.NONE ∧
    typeAt gEdgeCapture.itsBoard 0 3 = some CellType.NORMAL ∧
    pieceAt (capturePieces gEdgeCapture mEdgeCapture).itsBoard 0 4
      = some PieceType.NONE := by
  decide

/-- C4: a SHIELD protected by a friendly SHIELD on the beyond cell is
nevertheless captured after an ATTACK move to (0,5), through the same
garbled edge disjunct. -/
theorem capturePieces_captures_protected_shield :
    pieceAt gShieldBeyond.itsBoard 0 4 = some PieceType.SHIELD ∧
    pieceAt gShieldBeyond.itsBoard 0 3 = some PieceType.SHIELD ∧
    inGrid gShieldBeyond.itsBoard 0 3 ∧
    pieceAt (capturePieces gShieldBeyond mEdgeCapture).itsBoard 0 4
      = some PieceType.NONE := by
  decide

/-- C8: the bounds guard of `capturePieces` can pass while the
adjacent-cell access is outside the allocated grid: with the move
destination on the last row, the downward direction's guard tests
`itsRow + itsCol` instead of `itsRow + itsRow`, and the C++ then reads
`itsCells[SIZE][col]`. -/
theorem capturePieces_reads_out_of_grid :
    inGrid gLastRow.itsBoard 9 5 ∧ inGrid gLastRow.itsBoard 10 5 ∧
    capAccessesInBounds gLastRow mLastRow = false := by
  decide

/-! ## Board initialization: sizes -/

theorem setCellN_itsSize (b : Board) (r c : Nat) (cell : Cell) :
    (setCellN b r c cell).itsSize = b.itsSize := rfl

theorem setPieceN_itsSize (b : Board) (r c : Nat) (p : PieceType) :
    (setPieceN b r c p).itsSize = b.itsSize := rfl

theorem initBody11_itsSize (SIZE line column : Nat) (acc : Board) :
    (initBody11 SIZE line column acc).itsSize = acc.itsSize := by
  unfold initBody11 initBody11a initBody11b initBody11c initBody11d
  split_ifs <;> rfl

theorem initBody13_itsSize (SIZE line column : Nat) (acc : Board) :
    (initBody13 SIZE line column acc).itsSize = acc.itsSize := by
  unfold initBody13 initBody13a initBody13b initBody13c
  split_ifs <;> rfl

theorem initPass1_itsSize (SIZE : Nat) (b : Board) :
    (initPass1 SIZE b).itsSize = b.itsSize := by
  unfold initPass1
  apply foldl_pres_size
  intro b2 line
  apply foldl_pres_size
  intro b3 column
  split_ifs <;> rfl

theorem initializeBoard_itsSize (aBoard : Board) :
    (initializeBoard aBoard).itsSize = aBoard.itsSize := by
  unfold initializeBoard
  split_ifs
  · rw [foldl_pres_size _ (fun b line => foldl_pres_size _
      (fun b2 column => initBody11_itsSize _ _ _ _) _ b) _ _, initPass1_itsSize]
  · rw [foldl_pres_size _ (fun b line => foldl_pres_size _
      (fun b2 column => initBody13_itsSize _ _ _ _) _ b) _ _, initPass1_itsSize]
  · exact initPass1_itsSize _ _

/-! ## Board initialization: the reset pass writes every cell -/

theorem setCellN_itsCells (b : Board) (r c : Nat) (cell : Cell) (r' c' : Nat) :
    (setCellN b r c cell).itsCells r' c'
      = if r' = r ∧ c' = c then cell else b.itsCells r' c' := rfl

theorem pass1_body_eq (SIZE line : Nat) :
    (fun (acc2 : Board) (column : Nat) =>
      if line = SIZE / 2 ∧ column = SIZE / 2 then
        setCellN acc2 line column ⟨CellType.CASTLE, PieceType.KING⟩
      else if (line = 0 ∨ line = SIZE - 1) ∧ (column = 0 ∨ column = SIZE - 1) then
        setCellN acc2 line column ⟨CellType.FORTRESS, PieceType.NONE⟩
      else setCellN acc2 line column ⟨CellType.NORMAL, PieceType.NONE⟩)
    = fun (acc2 : Board) (column : Nat) =>
        setCellN acc2 line column (pass1Val SIZE line column) := by
  funext acc2 column
  unfold pass1Val
  split_ifs <;> rfl

theorem foldl_writeRow_itsCells (line : Nat) (v : Nat → Nat → Cell) :
    ∀ (l : List Nat) (b : Board) (r c : Nat),
    ((l.foldl (fun acc column => setCellN acc line column (v line column)) b).itsCells r c)
      = if r = line ∧ c ∈ l then v line c else b.itsCells r c := by
  intro l
  induction l with
  | nil => intro b r c; simp
  | cons a t ih =>
    intro b r c
    rw [List.foldl_cons, ih]
    simp only [setCellN_itsCells, List.mem_cons]
    by_cases h1 : r = line <;> by_cases h2 : c = a <;> by_cases h3 : c ∈ t <;>
      simp [h1, h2, h3]

theorem foldl_writeAll_itsCells (N : Nat) (v : Nat → Nat → Cell) :
    ∀ (ls : List Nat) (b : Board) (r c : Nat), c < N →
    ((ls.foldl (fun acc line => (List.range N).foldl
        (fun acc2 column => setCellN acc2 line column (v line column)) acc) b).itsCells r c)
      = if r ∈ ls then v r c else b.itsCells r c := by
  intro ls
  induction ls with
  | nil => intro b r c _; simp
  | cons a t ih =>
    intro b r c hc
    rw [List.foldl_cons, ih _ r c hc, foldl_writeRow_itsCells]
    simp only [List.mem_range, List.mem_cons]
    by_cases h1 : r = a <;> by_cases h3 : r ∈ t <;> simp [h1, h3, hc]

theorem initPass1_itsCells (SIZE : Nat) (b : Board) (r c : Nat)
    (hr : r < SIZE) (hc : c < SIZE) :
    (initPass1 SIZE b).itsCells r c = pass1Val SIZE r c := by
  unfold initPass1
  rw [show (fun (acc : Board) (line : Nat) => (List.range SIZE).foldl
        (fun acc2 column =>
          if line = SIZE / 2 ∧ column = SIZE / 2 then
            setCellN acc2 line column ⟨CellType.CASTLE, PieceType.KING⟩
          else if (line = 0 ∨ line = SIZE - 1) ∧ (column = 0 ∨ column = SIZE - 1) then
            setCellN acc2 line column ⟨CellType.FORTRESS, PieceType.NONE⟩
          else setCellN acc2 line column ⟨CellType.NORMAL, PieceType.NONE⟩) acc)
      = fun (acc : Board) (line : Nat) => (List.range SIZE).foldl
          (fun acc2 column => setCellN acc2 line column (pass1Val SIZE line column)) acc
      from funext fun acc => funext fun line => by rw [pass1_body_eq]]
  rw [foldl_writeAll_itsCells SIZE (pass1Val SIZE) (List.range SIZE) b r c hc]
  simp [List.mem_range, hr]

/-! ## Board initialization: agreement on the allocated grid -/

theorem AgreeC.setPieceN {N : Nat} {a b : Board} {r c : Nat}
    (hr : r < N) (hc : c < N) (h : AgreeC N a.itsCells b.itsCells) (p : PieceType) :
    AgreeC N (Hnefatafl.setPieceN a r c p).itsCells
      (Hnefatafl.setPieceN b r c p).itsCells := by
  intro r' c' hr' hc'
  unfold Hnefatafl.setPieceN
  dsimp only
  by_cases hx : r' = r ∧ c' = c
  · rw [if_pos hx, if_pos hx, h r' c' hr' hc']
  · rw [if_neg hx, if_neg hx]
    exact h r' c' hr' hc'

theorem foldl_pres_rel {α β : Type} (ρ : α → α → Prop) (f : α → β → α) :
    ∀ (l : List β), (∀ a b x, x ∈ l → ρ a b → ρ (f a x) (f b x)) →
    ∀ a b, ρ a b → ρ (l.foldl f a) (l.foldl f b) := by
  intro l
  induction l with
  | nil => intro _ a b h; exact h
  | cons x t ih =>
    intro hstep a b h
    rw [List.foldl_cons, List.foldl_cons]
    exact ih (fun a' b' y hy => hstep a' b' y (List.mem_cons_of_mem x hy))
      _ _ (hstep a b x (List.mem_cons_self x t) h)

/-- Both boards of an agreeing pair have size `N` and agree on the grid. -/
def BAgree (N : Nat) (a b : Board) : Prop :=
  a.itsSize = N ∧ b.itsSize = N ∧ AgreeC N a.itsCells b.itsCells

theorem BAgree.initBody11 {N : Nat} {a b : Board} (h : BAgree N a b)
    (SIZE line column : Nat) (hline : line < N) (hcol : column < N) :
    BAgree N (Hnefatafl.initBody11 SIZE line column a)
      (Hnefatafl.initBody11 SIZE line column b) := by
  obtain ⟨ha, hb, hcells⟩ := h
  refine ⟨by rw [initBody11_itsSize]; exact ha, by rw [initBody11_itsSize]; exact hb, ?_⟩
  unfold Hnefatafl.initBody11 initBody11a initBody11b initBody11c initBody11d
  split_ifs
  all_goals
    repeat apply AgreeC.setPieceN (by omega) (by omega)
  all_goals exact hcells

theorem BAgree.initBody13 {N : Nat} {a b : Board} (h : BAgree N a b)
    (SIZE line column : Nat) (hline : line < N) (hcol : column < N) :
    BAgree N (Hnefatafl.initBody13 SIZE line column a)
      (Hnefatafl.initBody13 SIZE line column b) := by
  obtain ⟨ha, hb, hcells⟩ := h
  refine ⟨by rw [initBody13_itsSize]; exact ha, by rw [initBody13_itsSize]; exact hb, ?_⟩
  unfold Hnefatafl.initBody13 initBody13a initBody13b initBody13c
  split_ifs
  all_goals
    repeat apply AgreeC.setPieceN (by omega) (by omega)
  all_goals exact hcells

theorem initialize_agree (b b' : Board) (hsz : b'.itsSize = b.itsSize) :
    BAgree b.itsSize (initializeBoard b) (initializeBoard b') := by
  have hp : BAgree b.itsSize (initPass1 b.itsSize b) (initPass1 b.itsSize b') := by
    refine ⟨by rw [initPass1_itsSize], by rw [initPass1_itsSize, hsz], ?_⟩
    intro r c hr hc
    rw [initPass1_itsCells _ _ _ _ hr hc, initPass1_itsCells _ _ _ _ hr hc]
  unfold initializeBoard
  rw [hsz]
  split_ifs
  · refine foldl_pres_rel (BAgree b.itsSize) _ (List.range b.itsSize) ?_ _ _ hp
    intro a a' line hline hab
    refine foldl_pres_rel (BAgree b.itsSize) _ (List.range b.itsSize) ?_ _ _ hab
    intro a2 a2' column hcolumn hab2
    exact hab2.initBody11 _ _ _ (List.mem_range.mp hline) (List.mem_range.mp hcolumn)
  · refine foldl_pres_rel (BAgree b.itsSize) _ (List.range b.itsSize) ?_ _ _ hp
    intro a a' line hline hab
    refine foldl_pres_rel (BAgree b.itsSize) _ (List.range b.itsSize) ?_ _ _ hab
    intro a2 a2' column hcolumn hab2
    exact hab2.initBody13 _ _ _ (List.mem_range.mp hline) (List.mem_range.mp hcolumn)
  · exact hp

/-! ## Counting congruences -/

theorem countPiece_eq_of_agree {N : Nat} {a b : Board} (h : BAgree N a b)
    (p : PieceType) : countPiece a p = countPiece b p := by
  obtain ⟨ha, hb, hc⟩ := h
  unfold countPiece
  rw [ha, hb]
  refine congrArg List.sum (List.map_congr_left ?_)
  intro r hr
  refine congrArg List.length (List.filter_congr ?_)
  intro c hc'
  rw [hc r c (List.mem_range.mp hr) (List.mem_range.mp hc')]

theorem countType_eq_of_agree {N : Nat} {a b : Board} (h : BAgree N a b)
    (t : CellType) : countType a t = countType b t := by
  obtain ⟨ha, hb, hc⟩ := h
  unfold countType
  rw [ha, hb]
  refine congrArg List.sum (List.map_congr_left ?_)
  intro r hr
  refine congrArg List.length (List.filter_congr ?_)
  intro c hc'
  rw [hc r c (List.mem_range.mp hr) (List.mem_range.mp hc')]

/-! ## The initialization claim -/

set_option maxRecDepth 40000 in
/-- C7: starting from ANY board of size 11 or 13, `initializeBoard`
produces exactly 1 KING, 12 SHIELDs and 24 SWORDs, with FORTRESS cells
at exactly the four corners and CASTLE at exactly the centre; the result
does not depend on the initial contents of the allocated grid, and a
second run changes nothing. -/
theorem initializeBoard_spec (aBoard : Board)
    (h : aBoard.itsSize = 11 ∨ aBoard.itsSize = 13) :
    countPiece (initializeBoard aBoard) PieceType.KING = 1 ∧
    countPiece (initializeBoard aBoard) PieceType.SHIELD = 12 ∧
    countPiece (initializeBoard aBoard) PieceType.SWORD = 24 ∧
    countType (initializeBoard aBoard) CellType.FORTRESS = 4 ∧
    countType (initializeBoard aBoard) CellType.CASTLE = 1 ∧
    (∀ r c, r < aBoard.itsSize → c < aBoard.itsSize →
      (((initializeBoard aBoard).itsCells r c).itsCellType = CellType.FORTRESS ↔
        ((r = 0 ∨ r = aBoard.itsSize - 1) ∧ (c = 0 ∨ c = aBoard.itsSize - 1)))) ∧
    (∀ r c, r < aBoard.itsSize → c < aBoard.itsSize →
      (((initializeBoard aBoard).itsCells r c).itsCellType = CellType.CASTLE ↔
        (r = aBoard.itsSize / 2 ∧ c = aBoard.itsSize / 2))) ∧
    (∀ aBoard' : Board, aBoard'.itsSize = aBoard.itsSize →
      ∀ r c, r < aBoard.itsSize → c < aBoard.itsSize →
        (initializeBoard aBoard').itsCells r c = (initializeBoard aBoard).itsCells r c) ∧
    (∀ r c, r < aBoard.itsSize → c < aBoard.itsSize →
      (initializeBoard (initializeBoard aBoard)).itsCells r c
        = (initializeBoard aBoard).itsCells r c) := by
  have hindep : ∀ aBoard' : Board, aBoard'.itsSize = aBoard.itsSize →
      ∀ r c, r < aBoard.itsSize → c < aBoard.itsSize →
        (initializeBoard aBoard').itsCells r c = (initializeBoard aBoard).itsCells r c :=
    fun aBoard' hsz r c hr hc => (initialize_agree aBoard aBoard' hsz).2.2 r c hr hc |>.symm
  have hidem : ∀ r c, r < aBoard.itsSize → c < aBoard.itsSize →
      (initializeBoard (initializeBoard aBoard)).itsCells r c
        = (initializeBoard aBoard).itsCells r c := by
    intro r c hr hc
    exact (initialize_agree (initializeBoard aBoard) aBoard
        (initializeBoard_itsSize aBoard).symm).2.2 r c
      (by rw [initializeBoard_itsSize]; exact hr)
      (by rw [initializeBoard_itsSize]; exact hc)
  rcases h with h | h
  · have hag : BAgree aBoard.itsSize (initializeBoard aBoard)
        (initializeBoard (emptyB 11)) :=
      initialize_agree aBoard (emptyB 11) (by rw [h]; rfl)
    have hforts : ∀ r, r < 11 → ∀ c, c < 11 →
        (((initializeBoard (emptyB 11)).itsCells r c).itsCellType = CellType.FORTRESS ↔
          ((r = 0 ∨ r = 11 - 1) ∧ (c = 0 ∨ c = 11 - 1))) := by decide
    have hcast : ∀ r, r < 11 → ∀ c, c < 11 →
        (((initializeBoard (emptyB 11)).itsCells r c).itsCellType = CellType.CASTLE ↔
          (r = 11 / 2 ∧ c = 11 / 2)) := by decide
    refine ⟨?_, ?_, ?_, ?_, ?_, ?_, ?_, hindep, hidem⟩
    · rw [countPiece_eq_of_agree hag PieceType.KING]; decide
    · rw [countPiece_eq_of_agree hag PieceType.SHIELD]; decide
    · rw [countPiece_eq_of_agree hag PieceType.SWORD]; decide
    · rw [countType_eq_of_agree hag CellType.FORTRESS]; decide
    · rw [countType_eq_of_agree hag CellType.CASTLE]; decide
    · intro r c hr hc
      rw [hag.2.2 r c hr hc]
      rw [h] at hr hc ⊢
      exact hforts r hr c hc
    · intro r c hr hc
      rw [hag.2.2 r c hr hc]
      rw [h] at hr hc ⊢
      exact hcast r hr c hc
  · have hag : BAgree aBoard.itsSize (initializeBoard aBoard)
        (initializeBoard (emptyB 13)) :=
      initialize_agree aBoard (emptyB 13) (by rw [h]; rfl)
    have hforts : ∀ r, r < 13 → ∀ c, c < 13 →
        (((initializeBoard (emptyB 13)).itsCells r c).itsCellType = CellType.FORTRESS ↔
          ((r = 0 ∨ r = 13 - 1) ∧ (c = 0 ∨ c = 13 - 1))) := by decide
    have hcast : ∀ r, r < 13 → ∀ c, c < 13 →
        (((initializeBoard (emptyB 13)).itsCells r c).itsCellType = CellType.CASTLE ↔
          (r = 13 / 2 ∧ c = 13 / 2)) := by decide
    refine ⟨?_, ?_, ?_, ?_, ?_, ?_, ?_, hindep, hidem⟩
    · rw [countPiece_eq_of_agree hag PieceType.KING]; decide
    · rw [countPiece_eq_of_agree hag PieceType.SHIELD]; decide
    · rw [countPiece_eq_of_agree hag PieceType.SWORD]; decide
    · rw [countType_eq_of_agree hag CellType.FORTRESS]; decide
    · rw [countType_eq_of_agree hag CellType.CASTLE]; decide
    · intro r c hr hc
      rw [hag.2.2 r c hr hc]
      rw [h] at hr hc ⊢
      exact hforts r hr c hc
    · intro r c hr hc
      rw [hag.2.2 r c hr hc]
      rw [h] at hr hc ⊢
      exact hcast r hr c hc

/-- Witness for C7 at the empty 11×11 board. -/
theorem initializeBoard_spec_witness :
    ((emptyB 11).itsSize = 11 ∨ (emptyB 11).itsSize = 13) ∧
    (countPiece (initializeBoard (emptyB 11)) PieceType.KING = 1 ∧
     countPiece (initializeBoard (emptyB 11)) PieceType.SHIELD = 12 ∧
     countPiece (initializeBoard (emptyB 11)) PieceType.SWORD = 24 ∧
     countType (initializeBoard (emptyB 11)) CellType.FORTRESS = 4 ∧
     countType (initializeBoard (emptyB 11)) CellType.CASTLE = 1 ∧
     (∀ r c, r < (emptyB 11).itsSize → c < (emptyB 11).itsSize →
       (((initializeBoard (emptyB 11)).itsCells r c).itsCellType = CellType.FORTRESS ↔
         ((r = 0 ∨ r = (emptyB 11).itsSize - 1) ∧ (c = 0 ∨ c = (emptyB 11).itsSize - 1)))) ∧
     (∀ r c, r < (emptyB 11).itsSize → c < (emptyB 11).itsSize →
       (((initializeBoard (emptyB 11)).itsCells r c).itsCellType = CellType.CASTLE ↔
         (r = (emptyB 11).itsSize / 2 ∧ c = (emptyB 11).itsSize / 2))) ∧
     (∀ aBoard' : Board, aBoard'.itsSize = (emptyB 11).itsSize →
       ∀ r c, r < (emptyB 11).itsSize → c < (emptyB 11).itsSize →
         (initializeBoard aBoard').itsCells r c
           = (initializeBoard (emptyB 11)).itsCells r c) ∧
     (∀ r c, r < (emptyB 11).itsSize → c < (emptyB 11).itsSize →
       (initializeBoard (initializeBoard (emptyB 11))).itsCells r c
         = (initializeBoard (emptyB 11)).itsCells r c)) :=
  ⟨Or.inl rfl, initializeBoard_spec (emptyB 11) (Or.inl rfl)⟩

end Hnefatafl
